import Mathlib

/-!
Verification of the simple-proxy repository: a Host-header-based HTTP
reverse proxy with a SQLite-backed domain registry and a management API.

The development shallowly embeds the Go sources:
  * `pkg/models` (the record and request structs),
  * `internal/database/db.go` (the registry operations over SQLite),
  * `internal/api/handlers.go` (the management-API handlers and middleware),
  * `internal/proxy` (the dispatcher `Proxy.ServeHTTP` and its
    reverse-proxy `Director` / `ErrorHandler`).

The SQLite table `domains` has `domain TEXT PRIMARY KEY`; we model it as a
list of records in insertion order, where a lookup is a linear scan for the
key (`find?`) and the primary-key constraint makes an insert of an existing
key fail.  Timestamps are modelled as an abstract clock value `now : Nat`
passed to every mutation (the SQL `CURRENT_TIMESTAMP`).  Storage I/O errors
are not produced by the pure model; where the Go code branches on them
(the dispatcher's lookup-error branch, the `ErrorHandler`) we model the
response text those branches write as functions of the underlying error
string.
-/

namespace SimpleProxy

/-- `models.Domain`: one stored domain→backend mapping (a row of the
`domains` table). `port` is a Go `int`, modelled as `Int`. -/
structure Domain where
  domain : String
  ip : String
  port : Int
  protocol : String
  createdAt : Nat
  updatedAt : Nat
deriving Repr, DecidableEq

/-- `models.CreateDomainRequest`. -/
structure CreateDomainRequest where
  domain : String
  ip : String
  port : Int
  protocol : String
deriving Repr, DecidableEq

/-- `models.UpdateDomainRequest`. -/
structure UpdateDomainRequest where
  ip : String
  port : Int
  protocol : String
deriving Repr, DecidableEq

/-- The `domains` table: rows in insertion order, keyed by `domain`. -/
abbrev Registry := List Domain

/-- `DB.GetDomain`: `SELECT ... FROM domains WHERE domain = ?`.
Returns `none` on `sql.ErrNoRows` (row absent). -/
def getDomain (reg : Registry) (dom : String) : Option Domain :=
  reg.find? (fun r => r.domain == dom)

/-- `DB.CreateDomain`: defaults an empty protocol to `"http"`, then runs
`INSERT INTO domains ...`; the `PRIMARY KEY` constraint on `domain` makes
the insert fail when the key already exists, and a failed statement leaves
the table unchanged.  On success the created row is fetched back. -/
def createDomain (reg : Registry) (now : Nat) (req : CreateDomainRequest) :
    Registry × Except String Domain :=
  let protocol := if req.protocol = "" then "http" else req.protocol
  if (getDomain reg req.domain).isSome then
    (reg, .error ("failed to create domain: UNIQUE constraint failed: domains.domain"))
  else
    let d : Domain :=
      { domain := req.domain, ip := req.ip, port := req.port,
        protocol := protocol, createdAt := now, updatedAt := now }
    (reg ++ [d], .ok d)

/-- `DB.UpdateDomain`: when the request's protocol is empty the existing
stored protocol is selected first and kept; then
`UPDATE domains SET ip = ?, port = ?, protocol = ?, updated_at = CURRENT_TIMESTAMP
WHERE domain = ?`.  Zero rows affected (key absent) yields `none`. -/
def updateDomain (reg : Registry) (now : Nat) (dom : String)
    (req : UpdateDomainRequest) : Registry × Option Domain :=
  let protocol? : Option String :=
    if req.protocol = "" then (getDomain reg dom).map (·.protocol)
    else some req.protocol
  match protocol? with
  | none => (reg, none)
  | some protocol =>
    if (getDomain reg dom).isSome then
      let reg' := reg.map (fun r =>
        if r.domain == dom then
          { r with ip := req.ip, port := req.port, protocol := protocol,
                   updatedAt := now }
        else r)
      (reg', getDomain reg' dom)
    else (reg, none)

/-- The insert loop inside `DB.BulkCreateDomains`: each request defaults an
empty protocol to `"http"` and is inserted inside the open transaction, so
it sees the rows inserted earlier in the same batch; the first failing
insert (duplicate key) aborts with that error. -/
def bulkInsertLoop (reg : Registry) (now : Nat) :
    List CreateDomainRequest → Except String Registry
  | [] => .ok reg
  | req :: rest =>
    let protocol := if req.protocol = "" then "http" else req.protocol
    if (getDomain reg req.domain).isSome then
      .error ("failed to create domain " ++ req.domain)
    else
      bulkInsertLoop
        (reg ++ [{ domain := req.domain, ip := req.ip, port := req.port,
                   protocol := protocol, createdAt := now, updatedAt := now }])
        now rest

/-- `DB.BulkCreateDomains`: an empty batch returns `[]` at once; otherwise
all inserts run in one transaction with `defer tx.Rollback()` — an error
anywhere rolls the whole transaction back (table as before the call), and
only a full pass commits, after which the created rows are fetched back. -/
def bulkCreateDomains (reg : Registry) (now : Nat)
    (reqs : List CreateDomainRequest) : Registry × Except String (List Domain) :=
  if reqs = [] then (reg, .ok [])
  else
    match bulkInsertLoop reg now reqs with
    | .error e => (reg, .error e)
    | .ok reg' =>
      (reg', .ok ((reqs.map (·.domain)).filterMap (fun n => getDomain reg' n)))

/-! ## Management-API handlers (`internal/api/handlers.go`) -/

/-- An HTTP response written by a handler: status code and body text
(the message passed to `http.Error`, or the encoded success payload
abstracted by its record content). -/
inductive ApiOutcome where
  | badRequest (body : String)
  | forbidden (body : String)
  | notFound (body : String)
  | internalError (body : String)
  | created (payload : List Domain)
  | okDomain (payload : Domain)
deriving Repr, DecidableEq

/-- `Handlers.CreateDomain` (POST /api/config): rejects a request with an
empty domain, empty ip, or port equal to `0` before touching the database;
defaults an empty protocol to `"http"`; then calls `DB.CreateDomain` and
maps its error to a 500 with the error text appended. -/
def handlersCreateDomain (reg : Registry) (now : Nat)
    (req : CreateDomainRequest) : Registry × ApiOutcome :=
  if req.domain = "" ∨ req.ip = "" ∨ req.port = 0 then
    (reg, .badRequest "Missing required fields: domain, ip, port")
  else
    let req := if req.protocol = "" then { req with protocol := "http" } else req
    match createDomain reg now req with
    | (reg', .error e) => (reg', .internalError ("Failed to create domain: " ++ e))
    | (reg', .ok d) => (reg', .created [d])

/-- `Handlers.UpdateDomain` (PUT /api/config/:domain): rejects an empty ip
or a zero port; **then replaces an empty protocol with `"http"`** (the
comment says the database method will handle the default, but the
assignment happens anyway) before calling `DB.UpdateDomain`. -/
def handlersUpdateDomain (reg : Registry) (now : Nat) (dom : String)
    (req : UpdateDomainRequest) : Registry × ApiOutcome :=
  if req.ip = "" ∨ req.port = 0 then
    (reg, .badRequest "Missing required fields: ip, port")
  else
    let req := if req.protocol = "" then { req with protocol := "http" } else req
    match updateDomain reg now dom req with
    | (reg', none) => (reg', .notFound "Domain not found")
    | (reg', some d) => (reg', .okDomain d)

/-- `Handlers.BulkCreateDomains` (POST /api/config/bulk): an empty batch is
a 400; each record is checked for an empty domain, empty ip, or zero port,
and the first offending index is rejected with a 400 naming that index —
all before any database call; surviving records get the `"http"` protocol
default; then `DB.BulkCreateDomains` runs. -/
def handlersBulkCreateDomains (reg : Registry) (now : Nat)
    (reqs : List CreateDomainRequest) : Registry × ApiOutcome :=
  if reqs = [] then (reg, .badRequest "No domains provided")
  else
    match reqs.findIdx? (fun d => d.domain == "" || d.ip == "" || d.port == 0) with
    | some i =>
      (reg, .badRequest ("Missing required fields in domain at index "
        ++ toString i ++ ": domain, ip, port"))
    | none =>
      let reqs := reqs.map (fun d =>
        if d.protocol = "" then { d with protocol := "http" } else d)
      match bulkCreateDomains reg now reqs with
      | (reg', .error e) => (reg', .internalError ("Failed to create domains: " ++ e))
      | (reg', .ok ds) => (reg', .created ds)

/-! ## Host normalization and the dispatcher (`internal/proxy`) -/

/-- The host-normalization step used by both `Proxy.ServeHTTP` and
`api.DomainMiddleware`:
`if idx := strings.LastIndex(host, ":"); idx != -1 { domainName = host[:idx] }`
— the slice of `host` strictly before its **last** colon, or `host` itself
when it has no colon.  Rendered on the character list: the part of the
reversed string after its first colon, reversed back. -/
def stripPortList (s : List Char) : List Char :=
  match s.reverse.dropWhile (fun c => c ≠ ':') with
  | [] => s
  | _ :: rest => rest.reverse

/-- `stripPortList` lifted to `String`. -/
def stripPort (host : String) : String :=
  ⟨stripPortList host.toList⟩

/-- `url.URL` as used by the dispatcher: the fields the `Director` reads
and writes.  `path` is the decoded path, `rawPath` the raw percent-encoded
form (Go keeps both). -/
structure URL where
  scheme : String
  host : String
  path : String
  rawPath : String
  rawQuery : String
  fragment : String
deriving Repr, DecidableEq

/-- `http.Request` restricted to the fields the dispatcher touches. -/
structure Request where
  method : String
  host : String
  url : URL
  requestURI : String
deriving Repr, DecidableEq

/-- The parsed target URL `scheme://ip:port`: `target.Scheme` and
`target.Host` as `url.Parse` yields them for that shape of string. -/
structure Target where
  scheme : String
  host : String
deriving Repr, DecidableEq

/-- `proxy.Director`: on the outbound request, set scheme and host from the
target, copy path, rawPath, rawQuery and fragment **from the original
request**, set the host header to the target host, clear `RequestURI`. -/
def director (target : Target) (orig : Request) (req : Request) : Request :=
  { req with
    url := { req.url with
      scheme := target.scheme, host := target.host,
      path := orig.url.path, rawPath := orig.url.rawPath,
      rawQuery := orig.url.rawQuery, fragment := orig.url.fragment },
    host := target.host,
    requestURI := "" }

/-- Result of `Proxy.ServeHTTP` on one inbound request. -/
inductive ServeOutcome where
  | badRequest (body : String)
  | notFound (body : String)
  | internalError (body : String)
  | proxied (outbound : Request)
deriving Repr, DecidableEq

/-- `Proxy.ServeHTTP`: require a Host header; strip a `:port` suffix at the
last colon; look the key up; 404 on a miss; on a hit default an empty
stored protocol to `"http"` (on the fetched copy only), build the target
`protocol://ip:port`, and hand the request to the reverse proxy whose
`Director` rewrites it.  The database is only read, never written, so the
registry is returned unchanged.  (`url.Parse` of `protocol://ip:port`
succeeds for every string free of control characters, so the
parse-error branch is not reachable in this model; its response text is
covered by `invalidTargetBody` below.) -/
def serveHTTP (reg : Registry) (r : Request) : ServeOutcome × Registry :=
  if r.host = "" then (.badRequest "Missing Host header", reg)
  else
    let domainName := stripPort r.host
    match getDomain reg domainName with
    | none => (.notFound "Domain not found", reg)
    | some d0 =>
      let d := if d0.protocol = "" then { d0 with protocol := "http" } else d0
      let target : Target := { scheme := d.protocol, host := d.ip ++ ":" ++ toString d.port }
      (.proxied (director target r r), reg)

/-! Response bodies written on the dispatcher's failure paths, as functions
of the underlying error string where the Go code has one in scope. -/

/-- Body written when `db.GetDomain` fails: the error is logged, the client
gets a fixed message. -/
def lookupErrorBody (err : String) : String :=
  "Internal server error"

/-- Body written when `url.Parse` of the target fails: the error is logged,
the client gets a fixed message. -/
def invalidTargetBody (err : String) : String :=
  "Invalid target configuration"

/-- `proxy.ErrorHandler` (backend unreachable, etc.): the client receives
`"Proxy error: "` followed by the underlying error's text. -/
def proxyErrorBody (err : String) : String :=
  "Proxy error: " ++ err

/-- `api.DomainMiddleware(allowedDomain)`: strip a `:port` suffix from the
request host at the last colon; a mismatch with the allowed domain is a 403
and the inner handler (authentication, then the registry handler) never
runs; a match passes the request through unchanged. -/
def domainMiddleware (allowedDomain : String)
    (next : Request → Registry → ApiOutcome × Registry)
    (r : Request) (reg : Registry) : ApiOutcome × Registry :=
  let domainName := stripPort r.host
  if domainName ≠ allowedDomain then
    (.forbidden "Forbidden: API access restricted to specific domain", reg)
  else next r reg

/-! ## Helper lemmas about the registry -/

theorem getDomain_append (l₁ l₂ : Registry) (d : String) :
    getDomain (l₁ ++ l₂) d = (getDomain l₁ d).or (getDomain l₂ d) := by
  simp [getDomain, List.find?_append]

theorem getDomain_append_of_some {l₁ : Registry} {d : String} {r : Domain}
    (h : getDomain l₁ d = some r) (l₂ : Registry) :
    getDomain (l₁ ++ l₂) d = some r := by
  simp [getDomain_append, h]

theorem getDomain_mem {reg : Registry} {d : String} {r : Domain}
    (h : getDomain reg d = some r) : r ∈ reg :=
  List.mem_of_find?_eq_some h

theorem getDomain_domain_eq {reg : Registry} {d : String} {r : Domain}
    (h : getDomain reg d = some r) : r.domain = d := by
  have := List.find?_some h
  simpa using this

theorem getDomain_append_singleton_none {reg : Registry} {r : Domain}
    (h : getDomain reg r.domain = none) :
    getDomain (reg ++ [r]) r.domain = some r := by
  rw [getDomain_append, h]
  simp [getDomain]

/-- The bulk-insert loop only appends rows: a row visible before the loop
is still the one found afterwards. -/
theorem bulkInsertLoop_mono {now : Nat} :
    ∀ {reqs : List CreateDomainRequest} {reg reg' : Registry},
      bulkInsertLoop reg now reqs = .ok reg' →
      ∀ {d : String} {r : Domain}, getDomain reg d = some r → getDomain reg' d = some r := by
  intro reqs
  induction reqs with
  | nil => intro reg reg' h d r hr; cases h; exact hr
  | cons req rest ih =>
    intro reg reg' h d r hr
    rw [bulkInsertLoop] at h
    split at h
    · exact absurd h (by simp)
    · exact ih h (getDomain_append_of_some hr _)

/-- A successful run of the bulk-insert loop means every request's domain
was fresh (relative to the starting registry and to the earlier requests of
the batch) and is present afterwards. -/
theorem bulkInsertLoop_ok_spec {now : Nat} :
    ∀ {reqs : List CreateDomainRequest} {reg reg' : Registry},
      bulkInsertLoop reg now reqs = .ok reg' →
      (∀ req ∈ reqs, (getDomain reg' req.domain).isSome) ∧
      (∀ req ∈ reqs, getDomain reg req.domain = none) ∧
      (reqs.map (·.domain)).Nodup := by
  intro reqs
  induction reqs with
  | nil => intro reg reg' h; refine ⟨by simp, by simp, by simp⟩
  | cons req rest ih =>
    intro reg reg' h
    rw [bulkInsertLoop] at h
    split at h
    · exact absurd h (by simp)
    · rename_i hfresh
      have hregnone : getDomain reg req.domain = none :=
        Option.not_isSome_iff_eq_none.mp hfresh
      set nd : Domain :=
        { domain := req.domain, ip := req.ip, port := req.port,
          protocol := if req.protocol = "" then "http" else req.protocol,
          createdAt := now, updatedAt := now } with hnd
      have hins : getDomain (reg ++ [nd]) req.domain = some nd := by
        have : getDomain reg nd.domain = none := hregnone
        simpa using getDomain_append_singleton_none this
      obtain ⟨ih1, ih2, ih3⟩ := ih h
      refine ⟨?_, ?_, ?_⟩
      · intro q hq
        rcases List.mem_cons.mp hq with hq | hq
        · subst hq
          exact Option.isSome_iff_exists.mpr ⟨nd, bulkInsertLoop_mono h hins⟩
        · exact ih1 q hq
      · intro q hq
        rcases List.mem_cons.mp hq with hq | hq
        · subst hq; exact hregnone
        · have := ih2 q hq
          rw [getDomain_append] at this
          exact (Option.or_eq_none.mp this).1
      · rw [List.map_cons, List.nodup_cons]
        refine ⟨?_, ih3⟩
        intro hmem
        obtain ⟨q, hq, hqd⟩ := List.mem_map.mp hmem
        have := ih2 q hq
        rw [hqd] at this
        rw [this] at hins
        exact absurd hins (by simp)

/-- A predicate true of every starting row and of every row the loop
inserts holds of every row of the committed registry. -/
theorem bulkInsertLoop_preserves (P : Domain → Prop) {now : Nat} :
    ∀ {reqs : List CreateDomainRequest} {reg reg' : Registry},
      bulkInsertLoop reg now reqs = .ok reg' →
      (∀ req ∈ reqs,
        P { domain := req.domain, ip := req.ip, port := req.port,
            protocol := if req.protocol = "" then "http" else req.protocol,
            createdAt := now, updatedAt := now }) →
      (∀ r ∈ reg, P r) → ∀ r ∈ reg', P r := by
  intro reqs
  induction reqs with
  | nil => intro reg reg' h _ hreg; cases h; exact hreg
  | cons req rest ih =>
    intro reg reg' h hreqs hreg
    rw [bulkInsertLoop] at h
    split at h
    · exact absurd h (by simp)
    · refine ih h (fun q hq => hreqs q (List.mem_cons_of_mem _ hq)) ?_
      intro r hr
      rcases List.mem_append.mp hr with hr | hr
      · exact hreg r hr
      · rw [List.mem_singleton] at hr
        subst hr
        exact hreqs req (List.mem_cons_self _ _)

/-- `bulkCreateDomains_preserves`: the committed registry of a bulk insert
satisfies any row predicate that holds of the starting rows and of each
row the batch would insert. -/
theorem bulkCreateDomains_preserves (P : Domain → Prop) (reg : Registry)
    (now : Nat) (reqs : List CreateDomainRequest)
    (hreqs : ∀ req ∈ reqs,
      P { domain := req.domain, ip := req.ip, port := req.port,
          protocol := if req.protocol = "" then "http" else req.protocol,
          createdAt := now, updatedAt := now })
    (hreg : ∀ r ∈ reg, P r) :
    ∀ r ∈ (bulkCreateDomains reg now reqs).1, P r := by
  intro r hr
  simp only [bulkCreateDomains] at hr
  split at hr
  · exact hreg r hr
  · cases hloop : bulkInsertLoop reg now reqs with
    | error e =>
      rw [hloop] at hr
      exact hreg r hr
    | ok reg' =>
      rw [hloop] at hr
      exact bulkInsertLoop_preserves P hloop hreqs hreg r hr

/-! ## Helper lemmas about host normalization -/

theorem stripPortList_append {pre suf : List Char}
    (h : ∀ c ∈ suf, c ≠ ':') :
    stripPortList (pre ++ ':' :: suf) = pre := by
  unfold stripPortList
  have hrev : (pre ++ ':' :: suf).reverse = suf.reverse ++ ':' :: pre.reverse := by
    simp
  rw [hrev]
  have hpos : ∀ c ∈ suf.reverse, (fun c => decide (c ≠ ':')) c = true := by
    intro c hc
    simpa using h c (List.mem_reverse.mp hc)
  rw [List.dropWhile_append_of_pos hpos]
  have : (':' :: pre.reverse).dropWhile (fun c => decide (c ≠ ':')) = ':' :: pre.reverse := by
    rw [List.dropWhile_cons]
    simp
  rw [this]
  simp

theorem stripPortList_no_colon {s : List Char} (h : ∀ c ∈ s, c ≠ ':') :
    stripPortList s = s := by
  unfold stripPortList
  have : s.reverse.dropWhile (fun c => decide (c ≠ ':')) = [] := by
    rw [List.dropWhile_eq_nil_iff]
    intro c hc
    simpa using h c (List.mem_reverse.mp hc)
  rw [this]

/-- Splitting at the last colon: when the suffix after the final colon is
colon-free, stripping returns exactly the prefix before that colon. -/
theorem stripPort_append {pre suf : String} (h : ∀ c ∈ suf.data, c ≠ ':') :
    stripPort (pre ++ ":" ++ suf) = pre := by
  unfold stripPort
  have hdata : (pre ++ ":" ++ suf).toList = pre.data ++ ':' :: suf.data := by
    simp [String.toList, String.data_append]
  rw [hdata, stripPortList_append h]

/-- A colon-free host is used verbatim as the routing key. -/
theorem stripPort_no_colon {s : String} (h : ∀ c ∈ s.data, c ≠ ':') :
    stripPort s = s := by
  unfold stripPort
  rw [show s.toList = s.data from rfl, stripPortList_no_colon h]

/-- The dispatcher never writes to the registry: `ServeHTTP` only calls
`GetDomain`. -/
theorem serveHTTP_registry_unchanged (reg : Registry) (r : Request) :
    (serveHTTP reg r).2 = reg := by
  simp only [serveHTTP]
  split
  · rfl
  · split <;> rfl

/-! ## Claim theorems -/

/-- C1: for every inbound request that resolves to a backend, the outbound
proxied request carries the original request's decoded path, raw
percent-encoded path, query string and fragment exactly as received (and
the method), with only the scheme and host rewritten to the resolved
backend's `scheme://address:port` (an empty stored scheme defaulting to
`http`). -/
theorem serveHTTP_preserves_path_query_fragment
    (reg : Registry) (r out : Request)
    (h : (serveHTTP reg r).1 = .proxied out) :
    out.url.path = r.url.path ∧ out.url.rawPath = r.url.rawPath ∧
    out.url.rawQuery = r.url.rawQuery ∧ out.url.fragment = r.url.fragment ∧
    out.method = r.method ∧
    ∃ d, getDomain reg (stripPort r.host) = some d ∧
      out.url.scheme = (if d.protocol = "" then "http" else d.protocol) ∧
      out.url.host = d.ip ++ ":" ++ toString d.port ∧
      out.host = d.ip ++ ":" ++ toString d.port := by
  simp only [serveHTTP] at h
  split at h
  · exact absurd h (by simp)
  · split at h
    · exact absurd h (by simp)
    · rename_i d0 hd
      simp only [ServeOutcome.proxied.injEq] at h
      subst h
      refine ⟨rfl, rfl, rfl, rfl, rfl, d0, hd, ?_, ?_, ?_⟩ <;>
        by_cases hc : d0.protocol = "" <;> simp [director, hc]

/-- C6: the dispatcher derives the routing key by slicing the host at its
last colon when one is present (so `"example.com:8443"` yields
`"example.com"`), uses a colon-free host unchanged, and looks that key up
in the registry (a miss on the stripped key is the not-found outcome). -/
theorem stripPort_routing_key (pre suf host : String) (reg : Registry)
    (r : Request)
    (hsuf : ∀ c ∈ suf.data, c ≠ ':') (hhost : ∀ c ∈ host.data, c ≠ ':')
    (hne : r.host ≠ "") (hmiss : getDomain reg (stripPort r.host) = none) :
    stripPort (pre ++ ":" ++ suf) = pre ∧
    stripPort host = host ∧
    stripPort "example.com:8443" = "example.com" ∧
    (serveHTTP reg r).1 = .notFound "Domain not found" := by
  refine ⟨stripPort_append hsuf, stripPort_no_colon hhost, by decide, ?_⟩
  simp only [serveHTTP, if_neg hne, hmiss]

/-- C9: a lookup hit whose stored record has an empty protocol is
normalized to `"http"` at read time: the outbound request targets
`http://address:port`, while the registry (and the stored record, still
found with its empty protocol) is untouched. -/
theorem serveHTTP_empty_scheme_defaults_http
    (reg : Registry) (r : Request) (d : Domain)
    (hne : r.host ≠ "") (hd : getDomain reg (stripPort r.host) = some d)
    (hp : d.protocol = "") :
    (serveHTTP reg r).1 =
      .proxied (director { scheme := "http", host := d.ip ++ ":" ++ toString d.port } r r) ∧
    (serveHTTP reg r).2 = reg ∧
    getDomain ((serveHTTP reg r).2) (stripPort r.host) = some d := by
  have h2 := serveHTTP_registry_unchanged reg r
  refine ⟨?_, h2, by rw [h2]; exact hd⟩
  simp only [serveHTTP, if_neg hne, hd, hp]
  simp [hp]

/-- C2: evaluation of the update path at the spec's own example.  After
inserting `("a.com","10.0.0.1",8080,"https")`, an update through the API
handler with `("10.0.0.2",9090,"")` (scheme omitted) stores scheme
`"http"`, not `"https"`: `Handlers.UpdateDomain` replaces the empty
protocol with `"http"` before calling `DB.UpdateDomain`, so the database
method's preserve-existing-scheme branch (third conjunct: calling
`DB.UpdateDomain` directly with the empty scheme does keep `"https"`)
never sees an empty scheme. -/
theorem handlersUpdateDomain_resets_stored_scheme :
    getDomain (createDomain [] 0 ⟨"a.com", "10.0.0.1", 8080, "https"⟩).1 "a.com"
      = some ⟨"a.com", "10.0.0.1", 8080, "https", 0, 0⟩ ∧
    (handlersUpdateDomain (createDomain [] 0 ⟨"a.com", "10.0.0.1", 8080, "https"⟩).1
        1 "a.com" ⟨"10.0.0.2", 9090, ""⟩).1
      = [⟨"a.com", "10.0.0.2", 9090, "http", 0, 1⟩] ∧
    (updateDomain (createDomain [] 0 ⟨"a.com", "10.0.0.1", 8080, "https"⟩).1
        1 "a.com" ⟨"10.0.0.2", 9090, ""⟩).1
      = [⟨"a.com", "10.0.0.2", 9090, "https", 0, 1⟩] := by
  decide

/-- C5: inserting a domain that already exists fails with the duplicate-key
error and leaves the registry, and in particular the previously stored
record, unchanged. -/
theorem createDomain_duplicate_fails_unchanged
    (reg : Registry) (now : Nat) (req : CreateDomainRequest) (d : Domain)
    (h : getDomain reg req.domain = some d) :
    (createDomain reg now req).1 = reg ∧
    (createDomain reg now req).2 =
      .error "failed to create domain: UNIQUE constraint failed: domains.domain" ∧
    getDomain (createDomain reg now req).1 req.domain = some d := by
  have hs : (getDomain reg req.domain).isSome := by rw [h]; rfl
  refine ⟨?_, ?_, ?_⟩ <;> simp [createDomain, hs, h]

/-- C3: `BulkCreateDomains` is all-or-nothing: an error (in particular a
domain duplicating existing data, or a duplicate within the batch itself)
leaves the registry exactly as before the call and is reported; a
successful call persists every record of the batch. -/
theorem bulkCreateDomains_atomic (reg : Registry) (now : Nat)
    (reqs : List CreateDomainRequest) :
    (∀ e, (bulkCreateDomains reg now reqs).2 = .error e →
      (bulkCreateDomains reg now reqs).1 = reg) ∧
    (∀ ds, (bulkCreateDomains reg now reqs).2 = .ok ds →
      ∀ req ∈ reqs, (getDomain (bulkCreateDomains reg now reqs).1 req.domain).isSome) ∧
    (∀ req ∈ reqs, (getDomain reg req.domain).isSome →
      ∃ e, (bulkCreateDomains reg now reqs).2 = .error e) ∧
    (¬ (reqs.map (·.domain)).Nodup →
      ∃ e, (bulkCreateDomains reg now reqs).2 = .error e) := by
  by_cases hnil : reqs = []
  · subst hnil
    exact ⟨fun e he => rfl, fun ds hds req hreq => (List.not_mem_nil req hreq).elim,
      fun req hreq => (List.not_mem_nil req hreq).elim,
      fun hnd => (hnd (by simp)).elim⟩
  · cases hloop : bulkInsertLoop reg now reqs with
    | error e =>
      have key : bulkCreateDomains reg now reqs = (reg, .error e) := by
        unfold bulkCreateDomains
        rw [if_neg hnil, hloop]
      rw [key]
      exact ⟨fun _ _ => rfl, fun ds hds => absurd hds (by simp),
        fun _ _ _ => ⟨e, rfl⟩, fun _ => ⟨e, rfl⟩⟩
    | ok reg' =>
      have key : bulkCreateDomains reg now reqs =
          (reg', .ok ((reqs.map (·.domain)).filterMap (fun n => getDomain reg' n))) := by
        unfold bulkCreateDomains
        rw [if_neg hnil, hloop]
      obtain ⟨hpresent, hfresh, hnodup⟩ := bulkInsertLoop_ok_spec hloop
      rw [key]
      refine ⟨fun e he => absurd he (by simp), fun ds hds req hreq => hpresent req hreq,
        fun req hreq hsome => ?_, fun hnd => absurd hnodup hnd⟩
      rw [hfresh req hreq] at hsome
      exact absurd hsome (by simp)

/-- A registry whose every row has a non-empty protocol. -/
def protocolsNonEmpty (reg : Registry) : Prop :=
  ∀ r ∈ reg, r.protocol ≠ ""

/-- C4 counterexample: a creation request with scheme `"ftp"` passes the
API handler and persists a record whose scheme is neither `"http"` nor
`"https"` — no operation validates the scheme against the two recognized
values. -/
theorem handlersCreateDomain_persists_ftp_scheme :
    (handlersCreateDomain [] 0 ⟨"a.com", "1.2.3.4", 80, "ftp"⟩).1
      = [⟨"a.com", "1.2.3.4", 80, "ftp", 0, 0⟩] ∧
    getDomain (handlersCreateDomain [] 0 ⟨"a.com", "1.2.3.4", 80, "ftp"⟩).1 "a.com"
      = some ⟨"a.com", "1.2.3.4", 80, "ftp", 0, 0⟩ ∧
    ("ftp" : String) ≠ "http" ∧ ("ftp" : String) ≠ "https" := by
  decide

/-- C4 amended: insert, update and bulk insert never persist an **empty**
scheme — an omitted scheme is replaced by the default `"http"`, and an
update with an omitted scheme re-uses the stored (non-empty) one — but any
other non-empty scheme string is stored as given, unvalidated. -/
theorem registry_scheme_never_empty (reg : Registry) (now : Nat)
    (creq : CreateDomainRequest) (dom : String) (ureq : UpdateDomainRequest)
    (breqs : List CreateDomainRequest) (h : protocolsNonEmpty reg) :
    protocolsNonEmpty (createDomain reg now creq).1 ∧
    protocolsNonEmpty (updateDomain reg now dom ureq).1 ∧
    protocolsNonEmpty (bulkCreateDomains reg now breqs).1 := by
  refine ⟨?_, ?_, ?_⟩
  · intro r hr
    simp only [createDomain] at hr
    split at hr
    · exact h r hr
    · rcases List.mem_append.mp hr with hr | hr
      · exact h r hr
      · rw [List.mem_singleton] at hr
        subst hr
        by_cases hp : creq.protocol = "" <;> simp [hp]
  · intro r hr
    simp only [updateDomain] at hr
    cases hp? : (if ureq.protocol = "" then (getDomain reg dom).map (·.protocol)
        else some ureq.protocol) with
    | none =>
      simp only [hp?] at hr
      exact h r hr
    | some protocol =>
      have hpne : protocol ≠ "" := by
        split at hp?
        · obtain ⟨r1, hr1, hrp⟩ := Option.map_eq_some'.mp hp?
          rw [← hrp]
          exact h r1 (getDomain_mem hr1)
        · rename_i hne
          cases hp?
          exact hne
      simp only [hp?] at hr
      split at hr
      · obtain ⟨r0, hr0, hr0e⟩ := List.mem_map.mp hr
        subst hr0e
        by_cases hdm : r0.domain == dom <;> simp [hdm]
        · exact hpne
        · exact h r0 hr0
      · exact h r hr
  · intro r hr
    simp only [bulkCreateDomains] at hr
    split at hr
    · exact h r hr
    · cases hloop : bulkInsertLoop reg now breqs with
      | error e =>
        rw [hloop] at hr
        exact h r hr
      | ok reg' =>
        rw [hloop] at hr
        refine bulkInsertLoop_preserves (fun r => r.protocol ≠ "") hloop ?_ h r hr
        intro req hreq
        by_cases hp : req.protocol = "" <;> simp [hp]

/-- C7 counterexample: on a backend-contact failure the dispatcher's
`ErrorHandler` sends `"Proxy error: "` followed by the underlying error's
text, so the internal error message (here a dial failure) reaches the
original caller, and the response varies with the internal error. -/
theorem proxyErrorBody_exposes_backend_error :
    proxyErrorBody "dial tcp 10.1.1.1:80: connect: connection refused"
      = "Proxy error: dial tcp 10.1.1.1:80: connect: connection refused" ∧
    ("connection refused").data <:+
      (proxyErrorBody "dial tcp 10.1.1.1:80: connect: connection refused").data ∧
    proxyErrorBody "dial tcp 10.1.1.1:80: connect: connection refused"
      ≠ proxyErrorBody "dial tcp 10.1.1.1:80: i/o timeout" := by
  refine ⟨rfl, ⟨"Proxy error: dial tcp 10.1.1.1:80: connect: ".data, ?_⟩, ?_⟩ <;> decide

/-- C7 amended: the responses for a registry-storage failure and for a
malformed backend target are fixed texts carrying no information about the
underlying error, but the backend-contact failure response appends the
underlying error's message verbatim. -/
theorem routing_failure_bodies_fixed (e e' : String) :
    lookupErrorBody e = "Internal server error" ∧
    lookupErrorBody e = lookupErrorBody e' ∧
    invalidTargetBody e = "Invalid target configuration" ∧
    invalidTargetBody e = invalidTargetBody e' ∧
    proxyErrorBody e = "Proxy error: " ++ e :=
  ⟨rfl, rfl, rfl, rfl, rfl⟩

/-- The field requirements the API handlers actually check on creation:
a non-empty domain, a non-empty ip, and a port different from `0`. -/
def recordFieldsRequired (r : Domain) : Prop :=
  r.port ≠ 0 ∧ r.ip ≠ "" ∧ r.domain ≠ ""

/-- C8 counterexample: a creation request with port `70000` — outside
1–65535 — passes the handler's validation (which only compares the port
against `0`) and is persisted, rather than being rejected as a validation
error. -/
theorem handlersCreateDomain_accepts_port_70000 :
    (handlersCreateDomain [] 0 ⟨"a.com", "1.2.3.4", 70000, "http"⟩).1
      = [⟨"a.com", "1.2.3.4", 70000, "http", 0, 0⟩] ∧
    (handlersCreateDomain [] 0 ⟨"a.com", "1.2.3.4", 70000, "http"⟩).2
      = .created [⟨"a.com", "1.2.3.4", 70000, "http", 0, 0⟩] ∧
    ¬ ((1 : Int) ≤ 70000 ∧ (70000 : Int) ≤ 65535) := by
  refine ⟨by decide, by decide, by decide⟩

/-- C8 amended: the handlers reject, before any mutation, a creation
request (single, or anywhere in a bulk batch) whose domain or address is
empty or whose port equals `0`, and every record they accept has a
non-empty domain and address and a port different from `0`; the port is
not otherwise checked against the 1–65535 range. -/
theorem handlers_validate_before_mutation (reg : Registry) (now : Nat)
    (req : CreateDomainRequest) (reqs : List CreateDomainRequest)
    (h : ∀ r ∈ reg, recordFieldsRequired r) :
    (req.domain = "" ∨ req.ip = "" ∨ req.port = 0 →
      handlersCreateDomain reg now req =
        (reg, .badRequest "Missing required fields: domain, ip, port")) ∧
    (∀ r ∈ (handlersCreateDomain reg now req).1, recordFieldsRequired r) ∧
    ((∃ d ∈ reqs, d.domain = "" ∨ d.ip = "" ∨ d.port = 0) →
      (handlersBulkCreateDomains reg now reqs).1 = reg ∧
      ∃ b, (handlersBulkCreateDomains reg now reqs).2 = .badRequest b) ∧
    (∀ r ∈ (handlersBulkCreateDomains reg now reqs).1, recordFieldsRequired r) := by
  refine ⟨?_, ?_, ?_, ?_⟩
  · intro hbad
    simp only [handlersCreateDomain, if_pos hbad]
  · intro r hr
    simp only [handlersCreateDomain] at hr
    split at hr
    · exact h r hr
    · rename_i hok
      push_neg at hok
      obtain ⟨hdom, hip, hport⟩ := hok
      set req' := if req.protocol = "" then { req with protocol := "http" } else req with hreq'
      have hfields : req'.domain = req.domain ∧ req'.ip = req.ip ∧ req'.port = req.port := by
        rw [hreq']
        split <;> exact ⟨rfl, rfl, rfl⟩
      split at hr
      · rename_i reg2 e hc
        simp only [createDomain] at hc
        split at hc
        · simp only [Prod.mk.injEq] at hc
          rw [← hc.1] at hr
          exact h r hr
        · simp at hc
      · rename_i reg2 d hc
        simp only [createDomain] at hc
        split at hc
        · simp at hc
        · simp only [Prod.mk.injEq] at hc
          rw [← hc.1] at hr
          rcases List.mem_append.mp hr with hr | hr
          · exact h r hr
          · rw [List.mem_singleton] at hr
            subst hr
            refine ⟨?_, ?_, ?_⟩
            · show req'.port ≠ 0
              rw [hfields.2.2]
              exact hport
            · show req'.ip ≠ ""
              rw [hfields.2.1]
              exact hip
            · show req'.domain ≠ ""
              rw [hfields.1]
              exact hdom
  · intro hbad
    obtain ⟨d, hd, hdbad⟩ := hbad
    have hnil : reqs ≠ [] := by
      intro hn; subst hn; exact List.not_mem_nil d hd
    have hfind : reqs.findIdx? (fun d => d.domain == "" || d.ip == "" || d.port == 0) ≠ none := by
      intro hnone
      have := List.findIdx?_eq_none_iff.mp hnone d hd
      simp only [Bool.or_eq_false_iff, beq_eq_false_iff_ne, ne_eq] at this
      rcases hdbad with hb | hb | hb
      · exact this.1.1 hb
      · exact this.1.2 hb
      · exact this.2 hb
    cases hidx : reqs.findIdx? (fun d => d.domain == "" || d.ip == "" || d.port == 0) with
    | none => exact absurd hidx hfind
    | some i =>
      constructor
      · simp only [handlersBulkCreateDomains, if_neg hnil, hidx]
      · refine ⟨"Missing required fields in domain at index "
          ++ toString i ++ ": domain, ip, port", ?_⟩
        simp only [handlersBulkCreateDomains, if_neg hnil, hidx]
  · intro r hr
    simp only [handlersBulkCreateDomains] at hr
    split at hr
    · exact h r hr
    · rename_i hnil
      split at hr
      · exact h r hr
      · rename_i hnone
        have hvalid : ∀ d ∈ reqs, ¬(d.domain = "" ∨ d.ip = "" ∨ d.port = 0) := by
          intro d hd
          have := List.findIdx?_eq_none_iff.mp hnone d hd
          simp only [Bool.or_eq_false_iff, beq_eq_false_iff_ne, ne_eq] at this
          rintro (hb | hb | hb)
          · exact this.1.1 hb
          · exact this.1.2 hb
          · exact this.2 hb
        set reqs' := reqs.map (fun d =>
          if d.protocol = "" then { d with protocol := "http" } else d) with hreqs'
        have hmem : ∀ r1 ∈ (bulkCreateDomains reg now reqs').1, recordFieldsRequired r1 := by
          refine bulkCreateDomains_preserves recordFieldsRequired reg now reqs' ?_ h
          intro q hq
          rw [hreqs'] at hq
          obtain ⟨d, hd, hde⟩ := List.mem_map.mp hq
          have hdv := hvalid d hd
          push_neg at hdv
          have hfields : q.domain = d.domain ∧ q.ip = d.ip ∧ q.port = d.port := by
            rw [← hde]
            split <;> exact ⟨rfl, rfl, rfl⟩
          refine ⟨?_, ?_, ?_⟩
          · show q.port ≠ 0
            rw [hfields.2.2]
            exact hdv.2.2
          · show q.ip ≠ ""
            rw [hfields.2.1]
            exact hdv.2.1
          · show q.domain ≠ ""
            rw [hfields.1]
            exact hdv.1
        split at hr
        · rename_i reg2 e hc
          have h1 : (bulkCreateDomains reg now reqs').1 = reg2 := by rw [hc]
          rw [← h1] at hr
          exact hmem r hr
        · rename_i reg2 ds hc
          have h1 : (bulkCreateDomains reg now reqs').1 = reg2 := by rw [hc]
          rw [← h1] at hr
          exact hmem r hr

/-- C10: the domain-restriction middleware strips a `:port` suffix from
the request host at the last colon and compares the rest with the
configured administrative domain; on a mismatch it answers Forbidden and
the inner pipeline (authentication, then the registry handler) never runs
— the result and the registry are the same whatever the inner handler is;
the administrative domain followed by any `:port` suffix passes through to
the inner handler unchanged. -/
theorem domainMiddleware_gate (allowed suf : String) (r r2 : Request)
    (reg reg2 : Registry)
    (next next2 : Request → Registry → ApiOutcome × Registry)
    (hmism : stripPort r.host ≠ allowed)
    (hsuf : ∀ c ∈ suf.data, c ≠ ':') (h2 : r2.host = allowed ++ ":" ++ suf) :
    domainMiddleware allowed next r reg
      = (.forbidden "Forbidden: API access restricted to specific domain", reg) ∧
    domainMiddleware allowed next2 r2 reg2 = next2 r2 reg2 := by
  constructor
  · simp [domainMiddleware, hmism]
  · have hkey : stripPort r2.host = allowed := by
      rw [h2]
      exact stripPort_append hsuf
    simp [domainMiddleware, hkey]

/-! ## Witnesses: the claim theorems applied at concrete inputs -/

/-- C1's theorem at the spec's example: host `example.com:8443` routed to
backend `(10.1.1.1, 80, http)` with inbound path `/a%2Fb?x=1#frag`. -/
theorem serveHTTP_preserves_path_query_fragment_witness :
    (Request.url (Request.mk "GET" "10.1.1.1:80"
        (URL.mk "http" "10.1.1.1:80" "/a/b" "/a%2Fb" "x=1" "frag") "")).path
      = (Request.url (Request.mk "GET" "example.com:8443"
        (URL.mk "http" "example.com" "/a/b" "/a%2Fb" "x=1" "frag") "/a%2Fb?x=1")).path ∧
    (URL.rawPath (Request.url (Request.mk "GET" "10.1.1.1:80"
        (URL.mk "http" "10.1.1.1:80" "/a/b" "/a%2Fb" "x=1" "frag") "")))
      = "/a%2Fb" ∧
    (URL.rawQuery (Request.url (Request.mk "GET" "10.1.1.1:80"
        (URL.mk "http" "10.1.1.1:80" "/a/b" "/a%2Fb" "x=1" "frag") "")))
      = "x=1" ∧
    (URL.fragment (Request.url (Request.mk "GET" "10.1.1.1:80"
        (URL.mk "http" "10.1.1.1:80" "/a/b" "/a%2Fb" "x=1" "frag") "")))
      = "frag" ∧
    "GET" = "GET" ∧
    ∃ d, getDomain [⟨"example.com", "10.1.1.1", 80, "http", 0, 0⟩]
        (stripPort "example.com:8443") = some d ∧
      "http" = (if d.protocol = "" then "http" else d.protocol) ∧
      "10.1.1.1:80" = d.ip ++ ":" ++ toString d.port ∧
      "10.1.1.1:80" = d.ip ++ ":" ++ toString d.port := by
  have h := serveHTTP_preserves_path_query_fragment
    [⟨"example.com", "10.1.1.1", 80, "http", 0, 0⟩]
    ⟨"GET", "example.com:8443",
      ⟨"http", "example.com", "/a/b", "/a%2Fb", "x=1", "frag"⟩, "/a%2Fb?x=1"⟩
    ⟨"GET", "10.1.1.1:80", ⟨"http", "10.1.1.1:80", "/a/b", "/a%2Fb", "x=1", "frag"⟩, ""⟩
    (by decide)
  exact h

/-- C6's theorem at `example.com:8443` against an empty registry. -/
theorem stripPort_routing_key_witness :
    stripPort ("example.com" ++ ":" ++ "8443") = "example.com" ∧
    stripPort "example.com" = "example.com" ∧
    stripPort "example.com:8443" = "example.com" ∧
    (serveHTTP [] ⟨"GET", "example.com:8443",
        ⟨"http", "example.com", "/", "", "", ""⟩, "/"⟩).1
      = .notFound "Domain not found" :=
  stripPort_routing_key "example.com" "8443" "example.com" []
    ⟨"GET", "example.com:8443", ⟨"http", "example.com", "/", "", "", ""⟩, "/"⟩
    (by decide) (by decide) (by decide) (by decide)

/-- C9's theorem at a stored record whose protocol is empty. -/
theorem serveHTTP_empty_scheme_defaults_http_witness :
    (serveHTTP [⟨"e.com", "9.9.9.9", 81, "", 3, 4⟩]
        ⟨"GET", "e.com", ⟨"http", "e.com", "/p", "", "", ""⟩, "/p"⟩).1
      = .proxied (director { scheme := "http", host := "9.9.9.9" ++ ":" ++ toString (81 : Int) }
          ⟨"GET", "e.com", ⟨"http", "e.com", "/p", "", "", ""⟩, "/p"⟩
          ⟨"GET", "e.com", ⟨"http", "e.com", "/p", "", "", ""⟩, "/p"⟩) ∧
    (serveHTTP [⟨"e.com", "9.9.9.9", 81, "", 3, 4⟩]
        ⟨"GET", "e.com", ⟨"http", "e.com", "/p", "", "", ""⟩, "/p"⟩).2
      = [⟨"e.com", "9.9.9.9", 81, "", 3, 4⟩] ∧
    getDomain ((serveHTTP [⟨"e.com", "9.9.9.9", 81, "", 3, 4⟩]
        ⟨"GET", "e.com", ⟨"http", "e.com", "/p", "", "", ""⟩, "/p"⟩).2)
        (stripPort "e.com")
      = some ⟨"e.com", "9.9.9.9", 81, "", 3, 4⟩ :=
  serveHTTP_empty_scheme_defaults_http
    [⟨"e.com", "9.9.9.9", 81, "", 3, 4⟩]
    ⟨"GET", "e.com", ⟨"http", "e.com", "/p", "", "", ""⟩, "/p"⟩
    ⟨"e.com", "9.9.9.9", 81, "", 3, 4⟩
    (by decide) (by decide) (by decide)

/-- C5's theorem at a concrete duplicate insertion. -/
theorem createDomain_duplicate_fails_unchanged_witness :
    (createDomain [⟨"a.com", "10.0.0.1", 8080, "https", 0, 0⟩] 5
        ⟨"a.com", "10.0.0.2", 9090, "http"⟩).1
      = [⟨"a.com", "10.0.0.1", 8080, "https", 0, 0⟩] ∧
    (createDomain [⟨"a.com", "10.0.0.1", 8080, "https", 0, 0⟩] 5
        ⟨"a.com", "10.0.0.2", 9090, "http"⟩).2
      = .error "failed to create domain: UNIQUE constraint failed: domains.domain" ∧
    getDomain (createDomain [⟨"a.com", "10.0.0.1", 8080, "https", 0, 0⟩] 5
        ⟨"a.com", "10.0.0.2", 9090, "http"⟩).1 "a.com"
      = some ⟨"a.com", "10.0.0.1", 8080, "https", 0, 0⟩ :=
  createDomain_duplicate_fails_unchanged
    [⟨"a.com", "10.0.0.1", 8080, "https", 0, 0⟩] 5
    ⟨"a.com", "10.0.0.2", 9090, "http"⟩
    ⟨"a.com", "10.0.0.1", 8080, "https", 0, 0⟩ (by decide)

/-- C3's theorem at the spec's example batch `[A, B]` where `B` duplicates
an existing record: the bulk insert reports an error (and, by the
theorem's first conjunct, the registry is unchanged). -/
theorem bulkCreateDomains_atomic_witness :
    ∃ e, (bulkCreateDomains [⟨"a.com", "10.0.0.1", 8080, "https", 0, 0⟩] 1
        [⟨"b.com", "1.1.1.1", 80, "http"⟩, ⟨"a.com", "2.2.2.2", 80, "http"⟩]).2
      = .error e :=
  (bulkCreateDomains_atomic [⟨"a.com", "10.0.0.1", 8080, "https", 0, 0⟩] 1
      [⟨"b.com", "1.1.1.1", 80, "http"⟩, ⟨"a.com", "2.2.2.2", 80, "http"⟩]).2.2.1
    ⟨"a.com", "2.2.2.2", 80, "http"⟩ (by decide) (by decide)

/-- C4's amended theorem at a concrete registry and batch. -/
theorem registry_scheme_never_empty_witness :
    protocolsNonEmpty (createDomain [⟨"a.com", "1.1.1.1", 80, "https", 0, 0⟩] 1
        ⟨"b.com", "2.2.2.2", 80, ""⟩).1 ∧
    protocolsNonEmpty (updateDomain [⟨"a.com", "1.1.1.1", 80, "https", 0, 0⟩] 1
        "a.com" ⟨"3.3.3.3", 81, ""⟩).1 ∧
    protocolsNonEmpty (bulkCreateDomains [⟨"a.com", "1.1.1.1", 80, "https", 0, 0⟩] 1
        [⟨"c.com", "4.4.4.4", 80, ""⟩]).1 :=
  registry_scheme_never_empty [⟨"a.com", "1.1.1.1", 80, "https", 0, 0⟩] 1
    ⟨"b.com", "2.2.2.2", 80, ""⟩ "a.com" ⟨"3.3.3.3", 81, ""⟩
    [⟨"c.com", "4.4.4.4", 80, ""⟩] (by unfold protocolsNonEmpty; decide)

/-- C8's amended theorem at a concrete invalid single request and a batch
with one invalid entry. -/
theorem handlers_validate_before_mutation_witness :
    (CreateDomainRequest.domain ⟨"", "1.2.3.4", 80, ""⟩ = ""
        ∨ CreateDomainRequest.ip ⟨"", "1.2.3.4", 80, ""⟩ = ""
        ∨ CreateDomainRequest.port ⟨"", "1.2.3.4", 80, ""⟩ = 0 →
      handlersCreateDomain [] 0 ⟨"", "1.2.3.4", 80, ""⟩ =
        ([], .badRequest "Missing required fields: domain, ip, port")) ∧
    (∀ r ∈ (handlersCreateDomain [] 0 ⟨"", "1.2.3.4", 80, ""⟩).1,
      recordFieldsRequired r) ∧
    ((∃ d ∈ [(⟨"a.com", "", 80, ""⟩ : CreateDomainRequest)],
        d.domain = "" ∨ d.ip = "" ∨ d.port = 0) →
      (handlersBulkCreateDomains [] 0 [⟨"a.com", "", 80, ""⟩]).1 = [] ∧
      ∃ b, (handlersBulkCreateDomains [] 0 [⟨"a.com", "", 80, ""⟩]).2 = .badRequest b) ∧
    (∀ r ∈ (handlersBulkCreateDomains [] 0 [⟨"a.com", "", 80, ""⟩]).1,
      recordFieldsRequired r) :=
  handlers_validate_before_mutation [] 0 ⟨"", "1.2.3.4", 80, ""⟩
    [⟨"a.com", "", 80, ""⟩] (fun r hr => absurd hr (List.not_mem_nil r))

/-- C10's theorem at administrative domain `admin.example`: host
`evil.example` is rejected with the registry untouched, host
`admin.example:8080` passes through to the inner handler. -/
theorem domainMiddleware_gate_witness :
    domainMiddleware "admin.example" (fun _ reg => (.notFound "inner", reg))
        ⟨"GET", "evil.example", ⟨"http", "evil.example", "/api/config", "", "", ""⟩, ""⟩
        ([] : Registry)
      = (.forbidden "Forbidden: API access restricted to specific domain", ([] : Registry)) ∧
    domainMiddleware "admin.example" (fun _ reg => (.notFound "inner", reg))
        ⟨"GET", "admin.example:8080", ⟨"http", "admin.example", "/api/config", "", "", ""⟩, ""⟩
        ([] : Registry)
      = ((.notFound "inner" : ApiOutcome), ([] : Registry)) :=
  domainMiddleware_gate "admin.example" "8080"
    ⟨"GET", "evil.example", ⟨"http", "evil.example", "/api/config", "", "", ""⟩, ""⟩
    ⟨"GET", "admin.example:8080", ⟨"http", "admin.example", "/api/config", "", "", ""⟩, ""⟩
    [] [] (fun _ reg => (.notFound "inner", reg)) (fun _ reg => (.notFound "inner", reg))
    (by decide) (by decide) (by decide)

end SimpleProxy
